import Mathlib

set_option autoImplicit false

namespace ImgQGen

/-! Shallow embedding of the question-generation pipeline of
`enhanced_image_question_generator.py` and `s3_enhanced_question_generator.py`:
difficulty allocation, response cleaning and parsing, schema validation,
retry control and batch statistics. Python ints are `Int`/`Nat`, the float
arithmetic of the difficulty distributions is carried out exactly over `ℚ`,
Python dicts are insertion-ordered association lists, and a raised exception
is a `none`/`Except.error` result. -/

/-- JSON values as produced by the JSON parser (`json.loads`): objects are
insertion-ordered association lists with unique keys; numbers are restricted
to integers, which covers every numeric field of the question schema. -/
inductive Json where
| null : Json
| bool (b : Bool) : Json
| num (n : Int) : Json
| str (s : String) : Json
| arr (xs : List Json) : Json
| obj (kvs : List (String × Json)) : Json

mutual

/-- Structural equality of JSON values, modelling Python `==`/`!=` on the
values returned by `json.loads`. -/
def Json.beq : Json → Json → Bool
  | .null, .null => true
  | .bool a, .bool b => a == b
  | .num a, .num b => a == b
  | .str a, .str b => a == b
  | .arr xs, .arr ys => Json.beqL xs ys
  | .obj xs, .obj ys => Json.beqKV xs ys
  | _, _ => false

/-- Elementwise `Json.beq` on lists. -/
def Json.beqL : List Json → List Json → Bool
  | [], [] => true
  | x :: xs, y :: ys => Json.beq x y && Json.beqL xs ys
  | _, _ => false

/-- Elementwise `Json.beq` on key-value lists. -/
def Json.beqKV : List (String × Json) → List (String × Json) → Bool
  | [], [] => true
  | (k, v) :: xs, (k', v') :: ys => k == k' && Json.beq v v' && Json.beqKV xs ys
  | _, _ => false

end

/-- First-match lookup in an ordered association list; models Python dict
indexing `d[k]` (parsed JSON objects have unique keys, so the first match is
the only match). -/
def lookupKey (kvs : List (String × Json)) (k : String) : Option Json :=
  match kvs with
  | [] => none
  | (k', v) :: rest => if k' = k then some v else lookupKey rest k

/-- Models Python membership `k in d`. -/
def hasKey (kvs : List (String × Json)) (k : String) : Bool :=
  (lookupKey kvs k).isSome

/-- Models Python dict assignment `d[k] = v`: replaces the value at the first
occurrence of `k`, or appends the pair when `k` is absent. -/
def setKey (kvs : List (String × Json)) (k : String) (v : Json) : List (String × Json) :=
  match kvs with
  | [] => [(k, v)]
  | (k', v') :: rest => if k' = k then (k', v) :: rest else (k', v') :: setKey rest k v

/-- Python's builtin `round` rounds half to even. The source computes
`round(image_count * r)` on floats; the model does the arithmetic exactly
over `ℚ` (the two agree on all the concrete inputs appearing in the theorems
below). -/
def pyround (q : ℚ) : Int :=
  let f : Int := q.num.fdiv q.den
  let frac : ℚ := q - (f : ℚ)
  if frac < 1/2 then f
  else if 1/2 < frac then f + 1
  else if f % 2 = 0 then f else f + 1

/-- Lines 227-230 of `s3_enhanced_question_generator.py`: the initial list of
difficulty labels, one block `[difficulty] * max(1, round(image_count * r))`
per entry, concatenated in mapping order. -/
def initialCounts (image_count : Nat) (distribution : List (String × ℚ)) : List String :=
  distribution.flatMap fun p => List.replicate (max 1 (pyround (image_count * p.2))).toNat p.1

/-- One `pop()` per iteration of the loop in lines 233-234 of
`s3_enhanced_question_generator.py`: `while len(difficulties) > image_count:
difficulties.pop()`. Python's `pop()` removes the last element; the fuel
argument bounds the iteration count and is chosen large enough by
`trimLoop`. -/
def trimLoopF : Nat → List String → Nat → List String
  | 0, l, _ => l
  | fuel + 1, l, n => if n < l.length then trimLoopF fuel l.dropLast n else l

/-- The trimming `while` loop of lines 233-234, which runs at most
`l.length` iterations. -/
def trimLoop (l : List String) (n : Nat) : List String :=
  trimLoopF l.length l n

/-- One `append` per iteration of the loop in lines 235-238:
`while len(difficulties) < image_count: difficulties.append(most_common)`.
The most common difficulty is recomputed each iteration in the source but
never changes, so it is the parameter `mc` here. -/
def fillLoopF : Nat → List String → Nat → String → List String
  | 0, l, _, _ => l
  | fuel + 1, l, n, mc => if l.length < n then fillLoopF fuel (l ++ [mc]) n mc else l

/-- The filling `while` loop of lines 235-238, which runs exactly
`n - l.length` iterations. -/
def fillLoop (l : List String) (n : Nat) (mc : String) : List String :=
  fillLoopF (n - l.length) l n mc

/-- Running first-maximum scan: Python's `max(..., key=...)` keeps the
earliest key attaining the maximum, replacing the candidate only on a
strictly greater value. -/
def argmaxGo {α : Type} [LinearOrder α] (d : String) (v : α) : List (String × α) → String
  | [] => d
  | (d', v') :: rest => if v < v' then argmaxGo d' v' rest else argmaxGo d v rest

/-- Line 237: `max(distribution.keys(), key=lambda k: distribution[k])`;
`none` models the `ValueError` Python's `max` raises on an empty mapping. -/
def argmaxKey {α : Type} [LinearOrder α] : List (String × α) → Option String
  | [] => none
  | (d, v) :: rest => some (argmaxGo d v rest)

/-- Deterministic core of `assign_global_difficulties` (lines 217-245 of
`s3_enhanced_question_generator.py`) for one chosen distribution: the initial
rounded blocks followed by the two adjustment loops. The caller picks the
distribution (randomly, or the first configured one when randomization is
off) and the final `random.shuffle` (line 242) merely permutes the list, so
neither affects any per-difficulty count; `none` models the only possible
exception, `max` over an empty mapping. -/
def assign_global_difficulties (image_count : Nat) (distribution : List (String × ℚ)) :
    Option (List String) :=
  let l := trimLoop (initialCounts image_count distribution) image_count
  if l.length < image_count then
    match argmaxKey distribution with
    | none => none
    | some mc => some (fillLoop l image_count mc)
  else some l

/-- Line 111 of `enhanced_image_question_generator.py`:
`difficulty_dist[max_key] += (question_count - current_total)` on the first
occurrence of the key. -/
def bumpKey (kvs : List (String × Int)) (k : String) (delta : Int) : List (String × Int) :=
  match kvs with
  | [] => []
  | (k', v) :: rest => if k' = k then (k', v + delta) :: rest else (k', v) :: bumpKey rest k delta

/-- Lines 97-111 of `enhanced_image_question_generator.py`: rescale a
fixed-count difficulty distribution to the drawn question count
(the difficulty part of `generate_randomized_prompt`). Counts are Python
ints; `none` models the `ZeroDivisionError` raised when the original counts
sum to 0 (the scale factor divides by that sum). -/
def scale_difficulty_dist (question_count : Nat) (dist : List (String × Int)) :
    Option (List (String × Int)) :=
  let total := (dist.map (fun p => p.2)).sum
  if total = (question_count : Int) then some dist
  else if total = 0 then none
  else
    let scale_factor : ℚ := (question_count : ℚ) / (total : ℚ)
    let scaled := dist.map fun p => (p.1, max 1 (pyround ((p.2 : ℚ) * scale_factor)))
    let curr := (scaled.map (fun p => p.2)).sum
    if curr = (question_count : Int) then some scaled
    else
      match argmaxKey scaled with
      | none => none
      | some mk => some (bumpKey scaled mk (question_count - curr))

/-- ASCII whitespace stripped by Python's `str.strip()`. -/
def isPySpace (c : Char) : Bool :=
  c == ' ' || c == '\t' || c == '\n' || c == '\r' || c == '\x0b' || c == '\x0c'

/-- Python `text.strip()`: drop leading and trailing whitespace. -/
def pyStrip (cs : List Char) : List Char :=
  ((cs.dropWhile isPySpace).reverse.dropWhile isPySpace).reverse

/-- Lines 343-350 of `s3_enhanced_question_generator.py` (identical to lines
201-208 of `enhanced_image_question_generator.py`): strip the response, drop
a leading markdown fence marker and a trailing one, and strip again. -/
def cleanList (cs : List Char) : List Char :=
  let t0 := pyStrip cs
  let t1 := if "```json".data.isPrefixOf t0 then t0.drop 7 else t0
  let t2 := if "```".data.isSuffixOf t1 then t1.take (t1.length - 3) else t1
  pyStrip t2

/-- String wrapper for `cleanList`. -/
def cleanResponse (s : String) : String :=
  String.mk (cleanList s.data)

/-- Whitespace accepted between JSON tokens. -/
def isJsonWs (c : Char) : Bool :=
  c == ' ' || c == '\t' || c == '\n' || c == '\r'

/-- Skip inter-token whitespace. -/
def skipWs (cs : List Char) : List Char :=
  cs.dropWhile isJsonWs

/-- Body of a JSON string literal (after the opening quote), with the basic
escape sequences; returns the decoded characters and the input after the
closing quote. The model of `json.loads` omits `\uXXXX` escapes, which no
input in this development uses. -/
def parseStringAux : Nat → List Char → Option (List Char × List Char)
  | 0, _ => none
  | _, [] => none
  | fuel + 1, c :: rest =>
    if c = '"' then some ([], rest)
    else if c = '\\' then
      match rest with
      | [] => none
      | e :: rest' =>
        let dec : Option Char :=
          if e = '"' then some '"'
          else if e = '\\' then some '\\'
          else if e = '/' then some '/'
          else if e = 'n' then some '\n'
          else if e = 't' then some '\t'
          else if e = 'r' then some '\r'
          else if e = 'b' then some '\x08'
          else if e = 'f' then some '\x0c'
          else none
        match dec with
        | none => none
        | some d =>
          match parseStringAux fuel rest' with
          | some (s, rem) => some (d :: s, rem)
          | none => none
    else
      match parseStringAux fuel rest with
      | some (s, rem) => some (c :: s, rem)
      | none => none

/-- Decimal digit run to a natural number. -/
def digitsToNat (ds : List Char) : Nat :=
  ds.foldl (fun a c => a * 10 + (c.toNat - 48)) 0

/-- Integer literal (optional minus sign, digit run); JSON fractions and
exponents are rejected by the model, which no input in this development
uses. -/
def parseIntLit (cs : List Char) : Option (Json × List Char) :=
  let core : List Char → Bool → Option (Json × List Char) := fun cs' neg =>
    let ds := cs'.takeWhile Char.isDigit
    if ds.isEmpty then none
    else
      match cs'.dropWhile Char.isDigit with
      | '.' :: _ => none
      | 'e' :: _ => none
      | 'E' :: _ => none
      | rem =>
        let n : Int := (digitsToNat ds : Int)
        some (.num (if neg then -n else n), rem)
  match cs with
  | '-' :: rest => core rest true
  | _ => core cs false

mutual

/-- Recursive-descent JSON value parser modelling `json.loads`; the fuel
argument makes the recursion structural and is chosen large enough by
`jsonParse`. -/
def parseVal : Nat → List Char → Option (Json × List Char)
  | 0, _ => none
  | fuel + 1, cs =>
    match skipWs cs with
    | [] => none
    | '"' :: rest =>
      match parseStringAux (fuel + 1) rest with
      | some (s, rem) => some (.str (String.mk s), rem)
      | none => none
    | 't' :: 'r' :: 'u' :: 'e' :: rest => some (.bool true, rest)
    | 'f' :: 'a' :: 'l' :: 's' :: 'e' :: rest => some (.bool false, rest)
    | 'n' :: 'u' :: 'l' :: 'l' :: rest => some (.null, rest)
    | '[' :: rest =>
      match skipWs rest with
      | ']' :: rem => some (.arr [], rem)
      | _ =>
        match parseElems fuel rest with
        | some (xs, rem) => some (.arr xs, rem)
        | none => none
    | '\x7b' :: rest =>
      match skipWs rest with
      | '\x7d' :: rem => some (.obj [], rem)
      | _ =>
        match parseMembers fuel rest with
        | some (kvs, rem) =>
          some (.obj (kvs.foldl (fun d p => setKey d p.1 p.2) []), rem)
        | none => none
    | other => parseIntLit other
termination_by structural fuel _ => fuel

/-- Comma-separated array elements up to the closing bracket. -/
def parseElems : Nat → List Char → Option (List Json × List Char)
  | 0, _ => none
  | fuel + 1, cs =>
    match parseVal fuel cs with
    | none => none
    | some (v, rem) =>
      match skipWs rem with
      | ',' :: r2 =>
        match parseElems fuel r2 with
        | some (vs, r3) => some (v :: vs, r3)
        | none => none
      | ']' :: r2 => some ([v], r2)
      | _ => none
termination_by structural fuel _ => fuel

/-- Comma-separated object members up to the closing brace (as the raw
key-value sequence; the caller folds them into a dict with `setKey`, so a
repeated key keeps its last value, as in CPython). -/
def parseMembers : Nat → List Char → Option (List (String × Json) × List Char)
  | 0, _ => none
  | fuel + 1, cs =>
    match skipWs cs with
    | '"' :: rest =>
      match parseStringAux (fuel + 1) rest with
      | none => none
      | some (k, rem) =>
        match skipWs rem with
        | ':' :: r2 =>
          match parseVal fuel r2 with
          | none => none
          | some (v, r3) =>
            match skipWs r3 with
            | ',' :: r4 =>
              match parseMembers fuel r4 with
              | some (kvs, r5) => some ((String.mk k, v) :: kvs, r5)
              | none => none
            | '\x7d' :: r4 => some ([(String.mk k, v)], r4)
            | _ => none
        | _ => none
    | _ => none
termination_by structural fuel _ => fuel

end

/-- JSON parse of a whole string: one value, optionally surrounded by
whitespace; `none` models a raised `json.JSONDecodeError`. -/
def jsonParseL (cs : List Char) : Option Json :=
  match parseVal (2 * cs.length + 2) cs with
  | some (v, rem) => if skipWs rem = [] then some v else none
  | none => none

/-- String wrapper for `jsonParseL`. -/
def jsonParse (s : String) : Option Json :=
  jsonParseL s.data

theorem Json.sizeOf_pos (a : Json) : 0 < sizeOf a := by
  cases a <;> simp_arith

theorem sizeOf_list_json_pos (xs : List Json) : 0 < sizeOf xs := by
  cases xs <;> simp only [List.cons.sizeOf_spec, List.nil.sizeOf_spec] <;> omega

theorem sizeOf_kv_list_pos (kvs : List (String × Json)) : 0 < sizeOf kvs := by
  cases kvs <;> simp only [List.cons.sizeOf_spec, List.nil.sizeOf_spec] <;> omega

theorem beqTriple (n : Nat) :
    (∀ a b : Json, sizeOf a ≤ n → (Json.beq a b = true ↔ a = b)) ∧
    (∀ xs ys : List Json, sizeOf xs ≤ n → (Json.beqL xs ys = true ↔ xs = ys)) ∧
    (∀ kvs kvs' : List (String × Json), sizeOf kvs ≤ n →
      (Json.beqKV kvs kvs' = true ↔ kvs = kvs')) := by
  induction n with
  | zero =>
    refine ⟨fun a b h => absurd h ?_, fun xs ys h => absurd h ?_, fun kvs kvs' h => absurd h ?_⟩
    · exact Nat.not_le.mpr (Json.sizeOf_pos a)
    · exact Nat.not_le.mpr (sizeOf_list_json_pos xs)
    · exact Nat.not_le.mpr (sizeOf_kv_list_pos kvs)
  | succ n ih =>
    obtain ⟨ihJ, ihL, ihKV⟩ := ih
    refine ⟨?_, ?_, ?_⟩
    · intro a b hle
      cases a <;> cases b <;> simp_all [Json.beq]
      case arr.arr xs ys =>
        have hx : sizeOf xs ≤ n := by omega
        rw [ihL xs ys hx]
      case obj.obj kvs kvs' =>
        have hx : sizeOf kvs ≤ n := by omega
        rw [ihKV kvs kvs' hx]
    · intro xs ys hle
      cases xs with
      | nil => cases ys <;> simp [Json.beqL]
      | cons x xs =>
        cases ys with
        | nil => simp [Json.beqL]
        | cons y ys =>
          have hpx := Json.sizeOf_pos x
          have hpxs := sizeOf_list_json_pos xs
          simp only [List.cons.sizeOf_spec] at hle
          have hx : sizeOf x ≤ n := by omega
          have hxs : sizeOf xs ≤ n := by omega
          simp [Json.beqL, ihJ x y hx, ihL xs ys hxs]
    · intro kvs kvs' hle
      cases kvs with
      | nil => cases kvs' <;> simp [Json.beqKV]
      | cons p kvs =>
        cases kvs' with
        | nil => simp [Json.beqKV]
        | cons q kvs' =>
          obtain ⟨k, v⟩ := p
          obtain ⟨k', v'⟩ := q
          have hpv := Json.sizeOf_pos v
          have hpkvs := sizeOf_kv_list_pos kvs
          simp only [List.cons.sizeOf_spec, Prod.mk.sizeOf_spec] at hle
          have hv : sizeOf v ≤ n := by omega
          have hkvs : sizeOf kvs ≤ n := by omega
          simp [Json.beqKV, ihJ v v' hv, ihKV kvs kvs' hkvs]

theorem Json.beq_iff_eq (a b : Json) : Json.beq a b = true ↔ a = b :=
  (beqTriple (sizeOf a)).1 a b le_rfl

instance : DecidableEq Json := fun a b => decidable_of_iff _ (Json.beq_iff_eq a b)

/-- The keys every generated question object must contain (line 363 of
`s3_enhanced_question_generator.py`, line 220 of
`enhanced_image_question_generator.py`). -/
def requiredKeys : List String :=
  ["question_text", "image_path", "option_text", "correct_answer_index", "difficulty_level",
    "explanation"]

/-- Whether a JSON value is an array (`isinstance(x, list)`). -/
def Json.isArr : Json → Bool
  | .arr _ => true
  | _ => false

/-- Lines 352-389 of `s3_enhanced_question_generator.py`: validation of the
parsed response of the S3 generator and the in-place fixups that follow it.
`none` models the `ValueError` raised on a malformed response: not an array
of exactly one object, a missing required key, or an `option_text` that is
not a list of length 4. On success the difficulty is forced to the assigned
one when it differs, missing `topic`/`subtopic` get defaults, and
`image_path`/`image_filename` are overwritten with the canonical S3 URL and
file name. -/
def validate_s3_question (parsed : Json) (assigned s3_url image_filename : String) :
    Option (List (String × Json)) :=
  match parsed with
  | .arr [.obj kvs] =>
    if requiredKeys.all (fun k => hasKey kvs k) then
      match lookupKey kvs "option_text" with
      | some (.arr opts) =>
        if opts.length = 4 then
          let kvs1 :=
            match lookupKey kvs "difficulty_level" with
            | some v => if Json.beq v (.str assigned) then kvs
                        else setKey kvs "difficulty_level" (.str assigned)
            | none => kvs
          let kvs2 := if hasKey kvs1 "topic" then kvs1 else setKey kvs1 "topic" (.str "Physics")
          let kvs3 := if hasKey kvs2 "subtopic" then kvs2
                      else setKey kvs2 "subtopic" (.str "General")
          let kvs4 := setKey kvs3 "image_path" (.str s3_url)
          some (setKey kvs4 "image_filename" (.str image_filename))
        else none
      | _ => none
    else none
  | _ => none

/-- Lines 216-241 of `enhanced_image_question_generator.py`: validation of a
single item of the batch response and its fixups (defaults for
`topic`/`subtopic`, `image_path` overwritten with the image file name).
Unlike the S3 validator this one also requires `difficulty_level` to be one
of the three allowed labels. -/
def validate_batch_item (item : Json) (image_filename : String) :
    Option (List (String × Json)) :=
  match item with
  | .obj kvs =>
    if requiredKeys.all (fun k => hasKey kvs k) then
      match lookupKey kvs "option_text" with
      | some (.arr opts) =>
        if opts.length = 4 then
          match lookupKey kvs "difficulty_level" with
          | some v =>
            if Json.beq v (.str "Easy") || Json.beq v (.str "Medium") ||
                Json.beq v (.str "Hard") then
              let kvs1 := if hasKey kvs "topic" then kvs else setKey kvs "topic" (.str "Physics")
              let kvs2 := if hasKey kvs1 "subtopic" then kvs1
                          else setKey kvs1 "subtopic" (.str "General")
              some (setKey kvs2 "image_path" (.str image_filename))
            else none
          | none => none
        else none
      | _ => none
    else none
  | _ => none

/-- The item loop of lines 216-241: each item is validated in order and the
first invalid one aborts the whole response (the `ValueError` propagates to
the retry handler). -/
def validate_items (items : List Json) (image_filename : String) :
    Option (List (List (String × Json))) :=
  match items with
  | [] => some []
  | it :: rest =>
    match validate_batch_item it image_filename with
    | none => none
    | some q =>
      match validate_items rest image_filename with
      | none => none
      | some qs => some (q :: qs)

/-- Lines 210-244 of `enhanced_image_question_generator.py`: the parsed
response must be a JSON array (line 213) and every item must validate. -/
def validate_batch_response (parsed : Json) (image_filename : String) :
    Option (List (List (String × Json))) :=
  match parsed with
  | .arr items => validate_items items image_filename
  | _ => none

/-- Outcome of one retry-loop iteration of `generate_question_from_s3_image`,
as a function of the model's response text for that attempt (the download,
image validation and upload are taken to succeed; when they fail the
attempt lands in the same generic `except` arm as `validationError`). -/
inductive S3Attempt where
| ok (q : List (String × Json)) : S3Attempt
| parseError : S3Attempt
| validationError : S3Attempt
deriving DecidableEq

/-- One iteration of the `for attempt in range(max_retries)` loop of
`generate_question_from_s3_image` (lines 310-396): clean the response text,
parse it (`json.JSONDecodeError` -> `parseError`), validate it
(`ValueError`, caught by the generic `except` -> `validationError`). -/
def s3_attempt (response_text assigned s3_url image_filename : String) : S3Attempt :=
  match jsonParse (cleanResponse response_text) with
  | none => .parseError
  | some v =>
    match validate_s3_question v assigned s3_url image_filename with
    | some q => .ok q
    | none => .validationError

/-- Outcome of one retry-loop iteration of
`generate_questions_from_image_batch`, analogously. -/
inductive BatchAttempt where
| ok (qs : List (List (String × Json))) : BatchAttempt
| parseError : BatchAttempt
| validationError : BatchAttempt
deriving DecidableEq

/-- One iteration of the retry loop of `generate_questions_from_image_batch`
(lines 176-255), as a function of the model's response text. -/
def batch_attempt (response_text image_filename : String) : BatchAttempt :=
  match jsonParse (cleanResponse response_text) with
  | none => .parseError
  | some v =>
    match validate_batch_response v image_filename with
    | some qs => .ok qs
    | none => .validationError

/-- Whether a batch attempt succeeded. -/
def BatchAttempt.isOk : BatchAttempt → Bool
  | .ok _ => true
  | _ => false

/-- The retry loop of `generate_question_from_s3_image`: `responses` is the
sequence of model responses, one per attempt, so its length is the
configured `max_retries`. Returns the first successful question together
with the number of attempts consumed; falling off the end models the
`return None` of line 414. -/
def s3_retry (responses : List String) (assigned s3_url image_filename : String) :
    Option (List (String × Json)) × Nat :=
  match responses with
  | [] => (none, 0)
  | r :: rest =>
    match s3_attempt r assigned s3_url image_filename with
    | .ok q => (some q, 1)
    | _ =>
      let p := s3_retry rest assigned s3_url image_filename
      (p.1, p.2 + 1)

/-- The retry loop of `generate_questions_from_image_batch`, analogously
(its `return None` is line 263). -/
def batch_retry (responses : List String) (image_filename : String) :
    Option (List (List (String × Json))) × Nat :=
  match responses with
  | [] => (none, 0)
  | r :: rest =>
    match batch_attempt r image_filename with
    | .ok qs => (some qs, 1)
    | _ =>
      let p := batch_retry rest image_filename
      (p.1, p.2 + 1)

/-- The sleep trace of the retry loop of
`generate_question_from_s3_image`: in the source (lines 396-405) the
`if attempt < max_retries - 1: time.sleep((attempt + 1) * 2)` block is
indented inside the generic `except Exception` arm, so only attempts that
fail with something other than a JSON parse error wait before the next
attempt. -/
def s3_waits_from (attempt maxR : Nat) (responses : List String)
    (assigned s3_url image_filename : String) : List Nat :=
  match responses with
  | [] => []
  | r :: rest =>
    match s3_attempt r assigned s3_url image_filename with
    | .ok _ => []
    | .parseError => s3_waits_from (attempt + 1) maxR rest assigned s3_url image_filename
    | .validationError =>
      (if attempt < maxR - 1 then [(attempt + 1) * 2] else []) ++
        s3_waits_from (attempt + 1) maxR rest assigned s3_url image_filename

/-- Sleep trace of a full S3 retry loop (`max_retries` = number of supplied
responses). -/
def s3_waits (responses : List String) (assigned s3_url image_filename : String) : List Nat :=
  s3_waits_from 0 responses.length responses assigned s3_url image_filename

/-- The sleep trace of the retry loop of
`generate_questions_from_image_batch`: there (lines 257-260) the backoff
block sits at loop-body level, after both `except` arms, so every failed
attempt except the last waits `(attempt + 1) * 2` seconds, whatever the
failure was. -/
def batch_waits_from (attempt maxR : Nat) (responses : List String)
    (image_filename : String) : List Nat :=
  match responses with
  | [] => []
  | r :: rest =>
    match batch_attempt r image_filename with
    | .ok _ => []
    | _ =>
      (if attempt < maxR - 1 then [(attempt + 1) * 2] else []) ++
        batch_waits_from (attempt + 1) maxR rest image_filename

/-- Sleep trace of a full batch retry loop. -/
def batch_waits (responses : List String) (image_filename : String) : List Nat :=
  batch_waits_from 0 responses.length responses image_filename

/-- `os.path.basename`: the part of the path after the last slash. -/
def basename (path : String) : String :=
  String.mk ((path.data.reverse.takeWhile (fun c => c ≠ '/')).reverse)

/-- The accumulator built by `process_image_directory` (lines 290-341) and
`process_s3_images` (lines 449-507): the counters and the per-image results
dict, with each entry reduced to its status string and question count (the
extra informational fields of the source entries play no role in the
claims). Timestamps and the S3 metadata fields are omitted. -/
structure ProcessingStats where
  total_images : Nat
  successful : Nat
  failed : Nat
  total_questions : Nat
  image_results : List (String × String × Nat)
deriving DecidableEq

/-- Models Python dict assignment on the `image_results` dict. -/
def setEntry (rs : List (String × String × Nat)) (k : String) (v : String × Nat) :
    List (String × String × Nat) :=
  match rs with
  | [] => [(k, v)]
  | (k', v') :: rest => if k' = k then (k', v) :: rest else (k', v') :: setEntry rest k v

/-- The common shape of every per-image branch of the two batch loops: bump
`successful` or `failed`, add the image's question count to
`total_questions`, and store that image's entry under its basename. -/
def recordResult (st : ProcessingStats) (fn status : String) (succ : Bool) (cnt : Nat) :
    ProcessingStats :=
  { st with
    successful := st.successful + (if succ then 1 else 0)
    failed := st.failed + (if succ then 0 else 1)
    total_questions := st.total_questions + cnt
    image_results := setEntry st.image_results fn (status, cnt) }

/-- Classification of one image of `process_s3_images` (lines 462-504):
`p.1` is the S3 key, `p.2` the outcome of
`generate_question_from_s3_image` (`.error` models an exception caught by
the outer handler). A returned question counts as a success only when it is
truthy, i.e. a non-empty dict (`if question:`), and contributes exactly one
question. -/
def s3_image_data (p : String × Except String (Option (List (String × Json)))) :
    String × String × Bool × Nat :=
  let fn := basename p.1
  match p.2 with
  | .ok (some q) => if q.isEmpty then (fn, "failed", false, 0) else (fn, "success", true, 1)
  | .ok none => (fn, "failed", false, 0)
  | .error _ => (fn, "error", false, 0)

/-- Classification of one image of `process_image_directory` (lines
300-338): a success contributes `len(questions)` questions, and an empty
list is falsy (`if questions:`), hence recorded as a failure. -/
def batch_image_data (p : String × Except String (Option (List (List (String × Json))))) :
    String × String × Bool × Nat :=
  let fn := basename p.1
  match p.2 with
  | .ok (some qs) => if qs.isEmpty then (fn, "failed", false, 0)
                     else (fn, "success", true, qs.length)
  | .ok none => (fn, "failed", false, 0)
  | .error _ => (fn, "error", false, 0)

/-- The stats loop of `process_s3_images` over the per-image outcomes. -/
def process_s3_images (imgs : List (String × Except String (Option (List (String × Json))))) :
    ProcessingStats :=
  imgs.foldl
    (fun st p =>
      let d := s3_image_data p
      recordResult st d.1 d.2.1 d.2.2.1 d.2.2.2)
    { total_images := imgs.length, successful := 0, failed := 0, total_questions := 0,
      image_results := [] }

/-- The stats loop of `process_image_directory` over the per-image
outcomes. -/
def process_image_directory
    (imgs : List (String × Except String (Option (List (List (String × Json)))))) :
    ProcessingStats :=
  imgs.foldl
    (fun st p =>
      let d := batch_image_data p
      recordResult st d.1 d.2.1 d.2.2.1 d.2.2.2)
    { total_images := imgs.length, successful := 0, failed := 0, total_questions := 0,
      image_results := [] }

example : jsonParse "[\x7b\"a\": 1, \"b\": [true, null]\x7d]" =
    some (.arr [.obj [("a", .num 1), ("b", .arr [.bool true, .null])]]) := by decide

example : jsonParse "\x7b\x7d" = some (.obj []) := by decide

example : jsonParse " -12 " = some (.num (-12)) := by decide

example : jsonParse "[1," = none := by decide

example : cleanResponse "```json\n[1]\n```" = "[1]" := by decide

unseal Rat.mul Rat.sub Rat.add Rat.inv in
example : assign_global_difficulties 3 [("Easy", 1/2), ("Medium", 3/10), ("Hard", 1/5)] =
    some ["Easy", "Easy", "Medium"] := by decide

unseal Rat.mul Rat.sub Rat.add Rat.inv in
example : assign_global_difficulties 10 [("Easy", 1/2), ("Medium", 3/10), ("Hard", 1/5)] =
    some ["Easy", "Easy", "Easy", "Easy", "Easy", "Medium", "Medium", "Medium", "Hard", "Hard"] := by
  decide

unseal Rat.mul Rat.sub Rat.add Rat.inv in
example : scale_difficulty_dist 3 [("Easy", 3), ("Medium", 1), ("Hard", 1)] =
    some [("Easy", 1), ("Medium", 1), ("Hard", 1)] := by decide

/-! ### Closed forms of the adjustment loops -/

theorem trimLoopF_eq_take : ∀ (fuel : Nat) (l : List String) (n : Nat),
    l.length - n ≤ fuel → trimLoopF fuel l n = l.take n := by
  intro fuel
  induction fuel with
  | zero =>
    intro l n h
    have hle : l.length ≤ n := by omega
    simp [trimLoopF, List.take_of_length_le hle]
  | succ fuel ih =>
    intro l n h
    by_cases hlen : n < l.length
    · rw [trimLoopF, if_pos hlen]
      have harg : l.dropLast.length - n ≤ fuel := by
        simp only [List.length_dropLast]
        omega
      rw [ih l.dropLast n harg]
      rw [List.dropLast_eq_take, List.take_take]
      congr 1
      omega
    · rw [trimLoopF, if_neg hlen]
      have hle : l.length ≤ n := by omega
      rw [List.take_of_length_le hle]

theorem trimLoop_eq_take (l : List String) (n : Nat) : trimLoop l n = l.take n :=
  trimLoopF_eq_take l.length l n (by omega)

theorem fillLoopF_eq : ∀ (fuel : Nat) (l : List String) (n : Nat) (mc : String),
    n - l.length ≤ fuel → fillLoopF fuel l n mc = l ++ List.replicate (n - l.length) mc := by
  intro fuel
  induction fuel with
  | zero =>
    intro l n mc h
    rw [show n - l.length = 0 by omega]
    simp [fillLoopF]
  | succ fuel ih =>
    intro l n mc h
    by_cases hlen : l.length < n
    · rw [fillLoopF, if_pos hlen]
      have harg : n - (l ++ [mc]).length ≤ fuel := by
        simp only [List.length_append, List.length_cons, List.length_nil]
        omega
      rw [ih (l ++ [mc]) n mc harg]
      rw [List.append_assoc]
      congr 1
      have hrep : n - l.length = (n - (l ++ [mc]).length) + 1 := by
        simp only [List.length_append, List.length_cons, List.length_nil]
        omega
      rw [hrep]
      simp [List.replicate_succ]
    · rw [fillLoopF, if_neg hlen]
      have hz : n - l.length = 0 := by omega
      rw [hz]
      simp

theorem fillLoop_eq (l : List String) (n : Nat) (mc : String) :
    fillLoop l n mc = l ++ List.replicate (n - l.length) mc :=
  fillLoopF_eq (n - l.length) l n mc le_rfl

theorem argmaxGo_self_or_mem {α : Type} [LinearOrder α] :
    ∀ (l : List (String × α)) (d : String) (v : α),
      argmaxGo d v l = d ∨ argmaxGo d v l ∈ l.map Prod.fst := by
  intro l
  induction l with
  | nil => intro d v; left; rfl
  | cons p rest ih =>
    intro d v
    obtain ⟨d', v'⟩ := p
    simp only [argmaxGo, List.map_cons]
    by_cases hlt : v < v'
    · simp only [hlt, if_true]
      rcases ih d' v' with h | h
      · right; rw [h]; exact List.mem_cons_self _ _
      · right; exact List.mem_cons_of_mem _ h
    · simp only [hlt, if_false]
      rcases ih d v with h | h
      · left; exact h
      · right; exact List.mem_cons_of_mem _ h

theorem argmaxKey_mem {α : Type} [LinearOrder α] {l : List (String × α)} {mc : String}
    (h : argmaxKey l = some mc) : mc ∈ l.map Prod.fst := by
  cases l with
  | nil => simp [argmaxKey] at h
  | cons p rest =>
    obtain ⟨d, v⟩ := p
    simp only [argmaxKey, Option.some.injEq] at h
    rcases argmaxGo_self_or_mem rest d v with h' | h'
    · rw [← h, h']; exact List.mem_cons_self _ _
    · rw [← h]; exact List.mem_cons_of_mem _ h'

theorem bumpKey_sum : ∀ (kvs : List (String × Int)) (k : String) (delta : Int),
    k ∈ kvs.map Prod.fst →
    ((bumpKey kvs k delta).map (fun p => p.2)).sum = (kvs.map (fun p => p.2)).sum + delta := by
  intro kvs
  induction kvs with
  | nil => intro k delta h; simp at h
  | cons p rest ih =>
    intro k delta hk
    obtain ⟨k', v⟩ := p
    simp only [bumpKey]
    by_cases he : k' = k
    · simp only [he, if_true, List.map_cons, List.sum_cons]
      omega
    · simp only [he, if_false, List.map_cons, List.sum_cons]
      have hk' : k ∈ rest.map Prod.fst := by
        rcases List.mem_cons.mp hk with h | h
        · exact absurd h.symm he
        · exact h
      rw [ih k delta hk']
      omega

theorem assign_spec (n : Nat) (dist : List (String × ℚ)) (hd : dist ≠ []) :
    ∃ l, assign_global_difficulties n dist = some l ∧ l.length = n := by
  unfold assign_global_difficulties
  have htrim : trimLoop (initialCounts n dist) n = (initialCounts n dist).take n :=
    trimLoop_eq_take _ _
  by_cases hc : (trimLoop (initialCounts n dist) n).length < n
  · obtain ⟨p, rest, rfl⟩ : ∃ p rest, dist = p :: rest := by
      cases dist with
      | nil => exact absurd rfl hd
      | cons p rest => exact ⟨p, rest, rfl⟩
    simp only [hc, if_true, argmaxKey]
    refine ⟨_, rfl, ?_⟩
    rw [fillLoop_eq]
    simp only [List.length_append, List.length_replicate]
    omega
  · simp only [hc, if_false]
    refine ⟨_, rfl, ?_⟩
    have h1 : (trimLoop (initialCounts n dist) n).length ≤ n := by
      rw [htrim, List.length_take]
      omega
    omega

theorem sum_after_bump (scaled : List (String × Int)) (qc : Int) (h : scaled ≠ []) :
    ∃ out, (match argmaxKey scaled with
            | none => (none : Option (List (String × Int)))
            | some mk => some (bumpKey scaled mk (qc - (scaled.map (fun p => p.2)).sum)))
        = some out ∧ (out.map (fun p => p.2)).sum = qc := by
  cases scaled with
  | nil => exact absurd rfl h
  | cons p rest =>
    simp only [argmaxKey]
    refine ⟨_, rfl, ?_⟩
    rw [bumpKey_sum _ _ _ (argmaxKey_mem (l := p :: rest) rfl)]
    omega

theorem scale_branch (scaled : List (String × Int)) (qc : Int) (h : scaled ≠ []) :
    ∃ out, (if (scaled.map (fun p => p.2)).sum = qc then some scaled
            else match argmaxKey scaled with
              | none => (none : Option (List (String × Int)))
              | some mk => some (bumpKey scaled mk (qc - (scaled.map (fun p => p.2)).sum)))
        = some out ∧ (out.map (fun p => p.2)).sum = qc := by
  by_cases h2 : (scaled.map (fun p => p.2)).sum = qc
  · rw [if_pos h2]
    exact ⟨scaled, rfl, h2⟩
  · rw [if_neg h2]
    exact sum_after_bump scaled qc h

/-- C1: for every positive total count and non-empty distribution, the
difficulty allocation of `assign_global_difficulties` yields per-difficulty
counts summing exactly to the total, and the per-image difficulty rescaling
of `generate_randomized_prompt` yields counts summing exactly to the drawn
question count. -/
theorem allocation_and_scaling_sum_to_total
    (n : Nat) (dist : List (String × ℚ)) (qc : Nat) (cdist : List (String × Int))
    (hn : 0 < n) (hd : dist ≠ []) (hcd : cdist ≠ [])
    (hct : 0 < (cdist.map (fun p => p.2)).sum) :
    (∃ l, assign_global_difficulties n dist = some l ∧
        (l.dedup.map fun d => l.count d).sum = n) ∧
    (∃ out, scale_difficulty_dist qc cdist = some out ∧
        (out.map (fun p => p.2)).sum = (qc : Int)) := by
  constructor
  · obtain ⟨l, hl, hlen⟩ := assign_spec n dist hd
    exact ⟨l, hl, by rw [List.sum_map_count_dedup_eq_length, hlen]⟩
  · have htot : (cdist.map (fun p => p.2)).sum ≠ 0 := by omega
    by_cases h1 : (cdist.map (fun p => p.2)).sum = (qc : Int)
    · refine ⟨cdist, ?_, h1⟩
      simp only [scale_difficulty_dist, h1, if_true]
    · simp only [scale_difficulty_dist, if_neg h1, if_neg htot]
      have hne : ∀ f : String × Int → String × Int, cdist.map f ≠ [] := by
        intro f hmap
        cases cdist with
        | nil => exact hcd rfl
        | cons p rest => simp at hmap
      exact scale_branch _ _ (hne _)

unseal Rat.mul Rat.sub Rat.add Rat.inv in
theorem allocation_and_scaling_sum_witness :
    ((0 : Nat) < 10 ∧ ([("Easy", (1 : ℚ)/2), ("Medium", 3/10), ("Hard", 1/5)]
        ≠ ([] : List (String × ℚ))) ∧
      ([("Easy", (3 : Int)), ("Medium", 1), ("Hard", 1)] ≠ ([] : List (String × Int))) ∧
      0 < (([("Easy", (3 : Int)), ("Medium", 1), ("Hard", 1)].map (fun p => p.2)).sum)) ∧
    ((∃ l, assign_global_difficulties 10 [("Easy", (1 : ℚ)/2), ("Medium", 3/10), ("Hard", 1/5)]
          = some l ∧ (l.dedup.map fun d => l.count d).sum = 10) ∧
      (∃ out, scale_difficulty_dist 4 [("Easy", (3 : Int)), ("Medium", 1), ("Hard", 1)]
          = some out ∧ (out.map (fun p => p.2)).sum = (4 : Int))) :=
  ⟨⟨by decide, by simp, by simp, by decide⟩,
    allocation_and_scaling_sum_to_total 10 [("Easy", (1 : ℚ)/2), ("Medium", 3/10), ("Hard", 1/5)]
      4 [("Easy", (3 : Int)), ("Medium", 1), ("Hard", 1)]
      (by decide) (by simp) (by simp) (by decide)⟩

unseal Rat.mul Rat.sub Rat.add Rat.inv in
/-- C2 (refutation by evaluation): with the generator's default distribution
Easy 0.5 / Medium 0.3 / Hard 0.2 and image count 3 (equal to the number of
positive-ratio difficulties), the allocation drops Hard entirely, although
line 229's comment says each difficulty is ensured at least one question: the
initial blocks are trimmed from the end of the list, which removes the only
Hard slot. -/
theorem hard_difficulty_dropped_despite_positive_share :
    ((0 : ℚ) < 1/2 ∧ (0 : ℚ) < 3/10 ∧ (0 : ℚ) < 1/5) ∧
    assign_global_difficulties 3 [("Easy", 1/2), ("Medium", 3/10), ("Hard", 1/5)] =
      some ["Easy", "Easy", "Medium"] ∧
    (["Easy", "Easy", "Medium"].count "Hard") = 0 := by
  refine ⟨⟨by decide, by decide, by decide⟩, by decide, by decide⟩

unseal Rat.mul Rat.sub Rat.add Rat.inv in
/-- C3 (counterexample): on the same input the initial blocks are
Easy 2 / Medium 1 / Hard 1, the rounding surplus is 1, and the surplus is
removed from "Hard" (the smallest ratio, holding the last block of the
list), not from "Easy", the difficulty with the largest ratio, whose count
stays 2. -/
theorem surplus_not_removed_from_largest_ratio :
    initialCounts 3 [("Easy", 1/2), ("Medium", 3/10), ("Hard", 1/5)] =
      ["Easy", "Easy", "Medium", "Hard"] ∧
    argmaxKey [("Easy", (1 : ℚ)/2), ("Medium", 3/10), ("Hard", 1/5)] = some "Easy" ∧
    assign_global_difficulties 3 [("Easy", 1/2), ("Medium", 3/10), ("Hard", 1/5)] =
      some ["Easy", "Easy", "Medium"] ∧
    (["Easy", "Easy", "Medium"].count "Easy" = 2 ∧ ["Easy", "Easy", "Medium"].count "Hard" = 0) := by
  refine ⟨by decide, by decide, by decide, by decide, by decide⟩

/-- C3 (amended): a rounding deficit is resolved by appending copies of the
difficulty returned by the first-maximum scan over the ratios (Python's
`max`, the largest ratio, earliest key on ties), while a rounding surplus is
resolved by removing elements from the end of the concatenated block list —
i.e. from the last difficulties in mapping order, not from the one with the
largest ratio. -/
theorem adjustment_loops_closed_form (n : Nat) (dist : List (String × ℚ)) (hd : dist ≠ []) :
    (n ≤ (initialCounts n dist).length →
      assign_global_difficulties n dist = some ((initialCounts n dist).take n)) ∧
    ((initialCounts n dist).length < n →
      ∃ mc, argmaxKey dist = some mc ∧
        assign_global_difficulties n dist =
          some (initialCounts n dist ++
            List.replicate (n - (initialCounts n dist).length) mc)) := by
  constructor
  · intro hle
    simp only [assign_global_difficulties, trimLoop_eq_take, List.length_take]
    have hmin : min n (initialCounts n dist).length = n := by omega
    rw [hmin]
    simp
  · intro hlt
    cases dist with
    | nil => exact absurd rfl hd
    | cons p rest =>
      refine ⟨argmaxGo p.1 p.2 rest, rfl, ?_⟩
      simp only [assign_global_difficulties, trimLoop_eq_take, List.length_take]
      have htk : (initialCounts n (p :: rest)).take n = initialCounts n (p :: rest) :=
        List.take_of_length_le (by omega)
      rw [htk]
      have hmin : min n (initialCounts n (p :: rest)).length
          = (initialCounts n (p :: rest)).length := by omega
      rw [hmin, if_pos hlt]
      simp only [argmaxKey]
      rw [fillLoop_eq]

unseal Rat.mul Rat.sub Rat.add Rat.inv in
theorem adjustment_loops_closed_form_witness :
    (([("Easy", (1 : ℚ)/2), ("Medium", 3/10), ("Hard", 1/5)] ≠ ([] : List (String × ℚ))) ∧
      3 ≤ (initialCounts 3 [("Easy", (1 : ℚ)/2), ("Medium", 3/10), ("Hard", 1/5)]).length) ∧
    ((3 ≤ (initialCounts 3 [("Easy", (1 : ℚ)/2), ("Medium", 3/10), ("Hard", 1/5)]).length →
      assign_global_difficulties 3 [("Easy", (1 : ℚ)/2), ("Medium", 3/10), ("Hard", 1/5)] =
        some ((initialCounts 3 [("Easy", (1 : ℚ)/2), ("Medium", 3/10), ("Hard", 1/5)]).take 3)) ∧
      ((initialCounts 3 [("Easy", (1 : ℚ)/2), ("Medium", 3/10), ("Hard", 1/5)]).length < 3 →
        ∃ mc, argmaxKey [("Easy", (1 : ℚ)/2), ("Medium", 3/10), ("Hard", 1/5)] = some mc ∧
          assign_global_difficulties 3 [("Easy", (1 : ℚ)/2), ("Medium", 3/10), ("Hard", 1/5)] =
            some (initialCounts 3 [("Easy", (1 : ℚ)/2), ("Medium", 3/10), ("Hard", 1/5)] ++
              List.replicate
                (3 - (initialCounts 3 [("Easy", (1 : ℚ)/2), ("Medium", 3/10), ("Hard", 1/5)]).length)
                mc))) :=
  ⟨⟨by simp, by decide⟩,
    adjustment_loops_closed_form 3 [("Easy", (1 : ℚ)/2), ("Medium", 3/10), ("Hard", 1/5)]
      (by simp)⟩

/-- C7: the difficulty allocator is a total function — modelled with
provably terminating recursions for both `while` loops — and for every
positive image count and non-empty ratio mapping it returns a value rather
than raising (the only modelled exception, `max` over an empty mapping, is
unreachable). -/
theorem allocator_terminates_and_never_raises (n : Nat) (dist : List (String × ℚ))
    (hn : 0 < n) (hd : dist ≠ []) :
    (assign_global_difficulties n dist).isSome = true := by
  obtain ⟨l, hl, -⟩ := assign_spec n dist hd
  rw [hl]
  rfl

unseal Rat.mul Rat.sub Rat.add Rat.inv in
theorem allocator_terminates_witness :
    ((0 : Nat) < 5 ∧ ([("Easy", (3 : ℚ)/5), ("Medium", 1/4), ("Hard", 3/20)]
      ≠ ([] : List (String × ℚ)))) ∧
    (assign_global_difficulties 5 [("Easy", (3 : ℚ)/5), ("Medium", 1/4), ("Hard", 3/20)]).isSome
      = true :=
  ⟨⟨by decide, by simp⟩,
    allocator_terminates_and_never_raises 5 [("Easy", (3 : ℚ)/5), ("Medium", 1/4), ("Hard", 3/20)]
      (by decide) (by simp)⟩

/-! ### Dict lemmas and validation guarantees -/

theorem lookup_setKey_self : ∀ (kvs : List (String × Json)) (k : String) (v : Json),
    lookupKey (setKey kvs k v) k = some v := by
  intro kvs
  induction kvs with
  | nil => intro k v; simp [setKey, lookupKey]
  | cons p rest ih =>
    intro k v
    obtain ⟨k', v'⟩ := p
    by_cases h : k' = k
    · simp [setKey, h, lookupKey]
    · simp [setKey, h, lookupKey, ih]

theorem lookup_setKey_ne : ∀ (kvs : List (String × Json)) (k k' : String) (v : Json),
    k' ≠ k → lookupKey (setKey kvs k' v) k = lookupKey kvs k := by
  intro kvs
  induction kvs with
  | nil => intro k k' v hne; simp [setKey, lookupKey, hne]
  | cons p rest ih =>
    intro k k' v hne
    obtain ⟨k0, v0⟩ := p
    by_cases h : k0 = k'
    · subst h
      simp [setKey, lookupKey, hne]
    · simp only [setKey, h, if_false, lookupKey]
      by_cases h2 : k0 = k
      · simp [h2]
      · simp [h2, ih _ _ _ hne]

theorem hasKey_setKey_ne (kvs : List (String × Json)) (k k' : String) (v : Json)
    (hne : k' ≠ k) : hasKey (setKey kvs k' v) k = hasKey kvs k := by
  unfold hasKey
  rw [lookup_setKey_ne _ _ _ _ hne]

/-- C4: on a well-formed response (an array with exactly one object holding
all required keys and a 4-element `option_text`), the S3 client returns the
single question and its `difficulty_level` is the caller-assigned one: a
matching stated difficulty is kept, a differing one is overwritten before
the question is returned. -/
theorem s3_client_forces_assigned_difficulty
    (kvs : List (String × Json)) (assigned s3Url imageFilename : String) (opts : List Json)
    (hreq : ∀ k ∈ requiredKeys, hasKey kvs k = true)
    (hopt : lookupKey kvs "option_text" = some (.arr opts))
    (hlen : opts.length = 4) :
    ∃ out, validate_s3_question (.arr [.obj kvs]) assigned s3Url imageFilename = some out ∧
      lookupKey out "difficulty_level" = some (.str assigned) := by
  have hall : requiredKeys.all (fun k => hasKey kvs k) = true := by
    rw [List.all_eq_true]
    exact hreq
  obtain ⟨dv, hdv⟩ : ∃ dv, lookupKey kvs "difficulty_level" = some dv := by
    have h := hreq "difficulty_level" (by simp [requiredKeys])
    unfold hasKey at h
    cases hl : lookupKey kvs "difficulty_level" with
    | none => rw [hl] at h; simp at h
    | some dv => exact ⟨dv, rfl⟩
  simp only [validate_s3_question, hall, if_true, hopt, hlen, hdv]
  by_cases hbeq : Json.beq dv (Json.str assigned) = true
  · obtain rfl : dv = Json.str assigned := (Json.beq_iff_eq dv (Json.str assigned)).mp hbeq
    rw [if_pos hbeq]
    refine ⟨_, rfl, ?_⟩
    rw [lookup_setKey_ne _ _ _ _ (by decide), lookup_setKey_ne _ _ _ _ (by decide)]
    split_ifs
    all_goals repeat rw [lookup_setKey_ne _ _ _ _ (by decide)]
    all_goals exact hdv
  · rw [if_neg hbeq]
    refine ⟨_, rfl, ?_⟩
    rw [lookup_setKey_ne _ _ _ _ (by decide), lookup_setKey_ne _ _ _ _ (by decide)]
    split_ifs
    all_goals repeat rw [lookup_setKey_ne _ _ _ _ (by decide)]
    all_goals exact lookup_setKey_self kvs "difficulty_level" (Json.str assigned)

/-- A concrete well-formed one-question response whose stated difficulty is
"Medium". -/
def sampleQuestion : List (String × Json) :=
  [("question_text", .str "Q"), ("image_path", .str "f.png"),
    ("option_text", .arr [.str "A", .str "B", .str "C", .str "D"]),
    ("correct_answer_index", .num 2), ("difficulty_level", .str "Medium"),
    ("explanation", .str "E")]

theorem s3_client_forces_assigned_difficulty_witness :
    ((∀ k ∈ requiredKeys, hasKey sampleQuestion k = true) ∧
      lookupKey sampleQuestion "option_text" =
        some (.arr [.str "A", .str "B", .str "C", .str "D"]) ∧
      ([Json.str "A", .str "B", .str "C", .str "D"] : List Json).length = 4) ∧
    (∃ out, validate_s3_question (.arr [.obj sampleQuestion]) "Hard" "URL" "img.png" = some out ∧
      lookupKey out "difficulty_level" = some (.str "Hard")) :=
  ⟨⟨by decide, by decide, by decide⟩,
    s3_client_forces_assigned_difficulty sampleQuestion "Hard" "URL" "img.png"
      [Json.str "A", .str "B", .str "C", .str "D"] (by decide) (by decide) (by decide)⟩

theorem validate_batch_item_spec (it : Json) (fn : String) (q : List (String × Json))
    (h : validate_batch_item it fn = some q) :
    (∃ opts, lookupKey q "option_text" = some (.arr opts) ∧ opts.length = 4) ∧
    (lookupKey q "difficulty_level" = some (.str "Easy") ∨
      lookupKey q "difficulty_level" = some (.str "Medium") ∨
      lookupKey q "difficulty_level" = some (.str "Hard")) ∧
    hasKey q "correct_answer_index" = true := by
  cases it with
  | null => exact Option.noConfusion h
  | bool b => exact Option.noConfusion h
  | num n => exact Option.noConfusion h
  | str s0 => exact Option.noConfusion h
  | arr xs => exact Option.noConfusion h
  | obj kvs =>
    simp only [validate_batch_item] at h
    by_cases hall : requiredKeys.all (fun k => hasKey kvs k) = true
    case neg => rw [if_neg hall] at h; exact Option.noConfusion h
    rw [if_pos hall] at h
    cases hopt : lookupKey kvs "option_text" with
    | none => rw [hopt] at h; exact Option.noConfusion h
    | some ov =>
      rw [hopt] at h
      cases ov with
      | null => simp at h
      | bool b => simp at h
      | num n => simp at h
      | str s0 => simp at h
      | obj kv2 => simp at h
      | arr opts =>
        dsimp only at h
        by_cases hlen : opts.length = 4
        case neg => rw [if_neg hlen] at h; exact Option.noConfusion h
        rw [if_pos hlen] at h
        cases hdv : lookupKey kvs "difficulty_level" with
        | none => rw [hdv] at h; exact Option.noConfusion h
        | some v =>
          rw [hdv] at h
          dsimp only at h
          by_cases henum : (Json.beq v (.str "Easy") || Json.beq v (.str "Medium") ||
              Json.beq v (.str "Hard")) = true
          case neg => rw [if_neg henum] at h; exact Option.noConfusion h
          rw [if_pos henum] at h
          obtain rfl := Option.some.inj h
          refine ⟨⟨opts, ?_, hlen⟩, ?_, ?_⟩
          · rw [lookup_setKey_ne _ _ _ _ (by decide)]
            split_ifs
            all_goals repeat rw [lookup_setKey_ne _ _ _ _ (by decide)]
            all_goals exact hopt
          · have hv : v = Json.str "Easy" ∨ v = Json.str "Medium" ∨ v = Json.str "Hard" := by
              simp only [Bool.or_eq_true] at henum
              rcases henum with (h1 | h1) | h1
              · exact Or.inl ((Json.beq_iff_eq _ _).mp h1)
              · exact Or.inr (Or.inl ((Json.beq_iff_eq _ _).mp h1))
              · exact Or.inr (Or.inr ((Json.beq_iff_eq _ _).mp h1))
            have hlv : lookupKey (setKey
                (if hasKey (if hasKey kvs "topic" = true then kvs
                    else setKey kvs "topic" (Json.str "Physics")) "subtopic" = true then
                  (if hasKey kvs "topic" = true then kvs else setKey kvs "topic" (Json.str "Physics"))
                else setKey (if hasKey kvs "topic" = true then kvs
                    else setKey kvs "topic" (Json.str "Physics")) "subtopic" (Json.str "General"))
                "image_path" (Json.str fn)) "difficulty_level" = some v := by
              rw [lookup_setKey_ne _ _ _ _ (by decide)]
              split_ifs
              all_goals repeat rw [lookup_setKey_ne _ _ _ _ (by decide)]
              all_goals exact hdv
            rcases hv with rfl | rfl | rfl
            · exact Or.inl hlv
            · exact Or.inr (Or.inl hlv)
            · exact Or.inr (Or.inr hlv)
          · have hck : hasKey kvs "correct_answer_index" = true :=
              List.all_eq_true.mp hall _ (by simp [requiredKeys])
            rw [hasKey_setKey_ne _ _ _ _ (by decide)]
            split_ifs
            all_goals repeat rw [hasKey_setKey_ne _ _ _ _ (by decide)]
            all_goals exact hck

/-- Guarantees of the batch client's schema validation, item by item. -/
theorem validate_batch_response_spec
    (parsed : Json) (imageFilename : String) (out : List (List (String × Json)))
    (h : validate_batch_response parsed imageFilename = some out) :
    ∀ q ∈ out,
      (∃ opts, lookupKey q "option_text" = some (.arr opts) ∧ opts.length = 4) ∧
      (lookupKey q "difficulty_level" = some (.str "Easy") ∨
        lookupKey q "difficulty_level" = some (.str "Medium") ∨
        lookupKey q "difficulty_level" = some (.str "Hard")) ∧
      hasKey q "correct_answer_index" = true := by
  cases parsed with
  | null => exact Option.noConfusion h
  | bool b => exact Option.noConfusion h
  | num n => exact Option.noConfusion h
  | str s0 => exact Option.noConfusion h
  | obj kvs => exact Option.noConfusion h
  | arr items =>
    simp only [validate_batch_response] at h
    induction items generalizing out with
    | nil =>
      simp only [validate_items, Option.some.injEq] at h
      subst h
      simp
    | cons it rest ih =>
      simp only [validate_items] at h
      cases hit : validate_batch_item it imageFilename with
      | none => rw [hit] at h; exact Option.noConfusion h
      | some q0 =>
        rw [hit] at h
        cases hrest : validate_items rest imageFilename with
        | none => rw [hrest] at h; exact Option.noConfusion h
        | some qs =>
          rw [hrest] at h
          obtain rfl := Option.some.inj h
          intro q hq
          rcases List.mem_cons.mp hq with rfl | hq'
          · exact validate_batch_item_spec it imageFilename q hit
          · exact ih qs hrest q hq'

/-- Expected output of validating `sampleQuestion` in the batch client:
defaults backfilled and `image_path` overwritten with the file name. -/
def sampleQuestionOut : List (String × Json) :=
  [("question_text", .str "Q"), ("image_path", .str "img.png"),
    ("option_text", .arr [.str "A", .str "B", .str "C", .str "D"]),
    ("correct_answer_index", .num 2), ("difficulty_level", .str "Medium"),
    ("explanation", .str "E"), ("topic", .str "Physics"), ("subtopic", .str "General")]

theorem validate_s3_question_spec (parsed : Json) (assigned s3Url s3Filename : String)
    (out : List (String × Json))
    (h : validate_s3_question parsed assigned s3Url s3Filename = some out) :
    (∃ opts, lookupKey out "option_text" = some (.arr opts) ∧ opts.length = 4) ∧
    hasKey out "correct_answer_index" = true := by
  cases parsed with
  | null => exact Option.noConfusion h
  | bool b => exact Option.noConfusion h
  | num n => exact Option.noConfusion h
  | str s0 => exact Option.noConfusion h
  | obj kvs => exact Option.noConfusion h
  | arr xs =>
    cases xs with
    | nil => exact Option.noConfusion h
    | cons x rest =>
      cases x with
      | null => exact Option.noConfusion h
      | bool b => exact Option.noConfusion h
      | num n => exact Option.noConfusion h
      | str s0 => exact Option.noConfusion h
      | arr ys => exact Option.noConfusion h
      | obj kvs =>
        cases rest with
        | cons y rest2 => exact Option.noConfusion h
        | nil =>
          simp only [validate_s3_question] at h
          by_cases hall : requiredKeys.all (fun k => hasKey kvs k) = true
          case neg => rw [if_neg hall] at h; exact Option.noConfusion h
          rw [if_pos hall] at h
          cases hopt : lookupKey kvs "option_text" with
          | none => rw [hopt] at h; exact Option.noConfusion h
          | some ov =>
            rw [hopt] at h
            cases ov with
            | null => simp at h
            | bool b => simp at h
            | num n => simp at h
            | str s0 => simp at h
            | obj kv2 => simp at h
            | arr opts =>
              dsimp only at h
              by_cases hlen : opts.length = 4
              case neg => rw [if_neg hlen] at h; exact Option.noConfusion h
              rw [if_pos hlen] at h
              have hck : hasKey kvs "correct_answer_index" = true :=
                List.all_eq_true.mp hall _ (by simp [requiredKeys])
              obtain ⟨dv, hdv⟩ : ∃ dv, lookupKey kvs "difficulty_level" = some dv := by
                have hd := List.all_eq_true.mp hall "difficulty_level" (by simp [requiredKeys])
                unfold hasKey at hd
                cases hl : lookupKey kvs "difficulty_level" with
                | none => rw [hl] at hd; simp at hd
                | some dv => exact ⟨dv, rfl⟩
              rw [hdv] at h
              dsimp only at h
              obtain rfl := Option.some.inj h
              constructor
              · refine ⟨opts, ?_, hlen⟩
                rw [lookup_setKey_ne _ _ _ _ (by decide),
                  lookup_setKey_ne _ _ _ _ (by decide)]
                split_ifs
                all_goals repeat rw [lookup_setKey_ne _ _ _ _ (by decide)]
                all_goals exact hopt
              · rw [hasKey_setKey_ne _ _ _ _ (by decide),
                  hasKey_setKey_ne _ _ _ _ (by decide)]
                split_ifs
                all_goals repeat rw [hasKey_setKey_ne _ _ _ _ (by decide)]
                all_goals exact hck

/-- C8 (amended): every question object returned after schema validation —
in either client — has an `option_text` of length exactly 4 and contains a
`correct_answer_index` key; the batch client additionally guarantees
`difficulty_level` lies in the closed enum Easy/Medium/Hard. Neither client
range-checks the value of `correct_answer_index` (see the counterexample,
where the value 7 passes both validators). -/
theorem validation_guarantees_both_clients
    (parsed : Json) (imageFilename : String) (out : List (List (String × Json)))
    (hB : validate_batch_response parsed imageFilename = some out)
    (parsedS3 : Json) (assigned s3Url s3Filename : String) (outS3 : List (String × Json))
    (hS3 : validate_s3_question parsedS3 assigned s3Url s3Filename = some outS3) :
    (∀ q ∈ out,
      (∃ opts, lookupKey q "option_text" = some (.arr opts) ∧ opts.length = 4) ∧
      (lookupKey q "difficulty_level" = some (.str "Easy") ∨
        lookupKey q "difficulty_level" = some (.str "Medium") ∨
        lookupKey q "difficulty_level" = some (.str "Hard")) ∧
      hasKey q "correct_answer_index" = true) ∧
    ((∃ opts, lookupKey outS3 "option_text" = some (.arr opts) ∧ opts.length = 4) ∧
      hasKey outS3 "correct_answer_index" = true) :=
  ⟨validate_batch_response_spec parsed imageFilename out hB,
    validate_s3_question_spec parsedS3 assigned s3Url s3Filename outS3 hS3⟩

/-- Expected output of validating `sampleQuestion` in the S3 client with
assigned difficulty "Hard": difficulty overwritten, defaults backfilled,
`image_path` replaced by the S3 URL, `image_filename` appended. -/
def sampleQuestionS3Out : List (String × Json) :=
  [("question_text", .str "Q"), ("image_path", .str "URL"),
    ("option_text", .arr [.str "A", .str "B", .str "C", .str "D"]),
    ("correct_answer_index", .num 2), ("difficulty_level", .str "Hard"),
    ("explanation", .str "E"), ("topic", .str "Physics"), ("subtopic", .str "General"),
    ("image_filename", .str "img.png")]

theorem validation_guarantees_witness :
    (validate_batch_response (.arr [.obj sampleQuestion]) "img.png" = some [sampleQuestionOut] ∧
      validate_s3_question (.arr [.obj sampleQuestion]) "Hard" "URL" "img.png"
        = some sampleQuestionS3Out) ∧
    ((∀ q ∈ [sampleQuestionOut],
      (∃ opts, lookupKey q "option_text" = some (.arr opts) ∧ opts.length = 4) ∧
      (lookupKey q "difficulty_level" = some (.str "Easy") ∨
        lookupKey q "difficulty_level" = some (.str "Medium") ∨
        lookupKey q "difficulty_level" = some (.str "Hard")) ∧
      hasKey q "correct_answer_index" = true) ∧
    ((∃ opts, lookupKey sampleQuestionS3Out "option_text" = some (.arr opts) ∧
        opts.length = 4) ∧
      hasKey sampleQuestionS3Out "correct_answer_index" = true)) :=
  ⟨⟨by decide, by decide⟩,
    validation_guarantees_both_clients (.arr [.obj sampleQuestion]) "img.png"
      [sampleQuestionOut] (by decide) (.arr [.obj sampleQuestion]) "Hard" "URL" "img.png"
      sampleQuestionS3Out (by decide)⟩

/-- A response item that is schema-complete but has `correct_answer_index`
equal to 7, outside the documented range 0-3. -/
def outOfRangeItem : List (String × Json) :=
  [("question_text", .str "Q"), ("image_path", .str "orig"),
    ("option_text", .arr [.str "A", .str "B", .str "C", .str "D"]),
    ("correct_answer_index", .num 7), ("difficulty_level", .str "Easy"),
    ("explanation", .str "E"), ("topic", .str "T"), ("subtopic", .str "S")]

/-- Validation output for `outOfRangeItem`: only `image_path` changes. -/
def outOfRangeItemOut : List (String × Json) :=
  [("question_text", .str "Q"), ("image_path", .str "img.png"),
    ("option_text", .arr [.str "A", .str "B", .str "C", .str "D"]),
    ("correct_answer_index", .num 7), ("difficulty_level", .str "Easy"),
    ("explanation", .str "E"), ("topic", .str "T"), ("subtopic", .str "S")]

/-- Validation output for `outOfRangeItem` in the S3 client: the stated
difficulty matches the assigned "Easy", so only `image_path` changes and
`image_filename` is appended. -/
def outOfRangeItemS3Out : List (String × Json) :=
  [("question_text", .str "Q"), ("image_path", .str "URL"),
    ("option_text", .arr [.str "A", .str "B", .str "C", .str "D"]),
    ("correct_answer_index", .num 7), ("difficulty_level", .str "Easy"),
    ("explanation", .str "E"), ("topic", .str "T"), ("subtopic", .str "S"),
    ("image_filename", .str "img.png")]

/-- C8 (counterexample): both clients' schema validations accept a question
whose `correct_answer_index` is 7, which is not in [0,3], so the claimed
Question invariant does not hold of every validated question. -/
theorem validation_accepts_out_of_range_index :
    validate_batch_response (.arr [.obj outOfRangeItem]) "img.png" = some [outOfRangeItemOut] ∧
    lookupKey outOfRangeItemOut "correct_answer_index" = some (.num 7) ∧
    validate_s3_question (.arr [.obj outOfRangeItem]) "Easy" "URL" "img.png"
      = some outOfRangeItemS3Out ∧
    lookupKey outOfRangeItemS3Out "correct_answer_index" = some (.num 7) ∧
    ¬((0 : Int) ≤ 7 ∧ (7 : Int) ≤ 3) := by
  refine ⟨by decide, by decide, by decide, by decide, by decide⟩

/-! ### Retry exhaustion -/

theorem validate_s3_non_array (v : Json) (a u f : String) (hv : Json.isArr v = false) :
    validate_s3_question v a u f = none := by
  cases v with
  | arr xs => simp [Json.isArr] at hv
  | null => rfl
  | bool b => rfl
  | num n => rfl
  | str s0 => rfl
  | obj kvs => rfl

theorem validate_batch_non_array (v : Json) (f : String) (hv : Json.isArr v = false) :
    validate_batch_response v f = none := by
  cases v with
  | arr xs => simp [Json.isArr] at hv
  | null => rfl
  | bool b => rfl
  | num n => rfl
  | str s0 => rfl
  | obj kvs => rfl

/-- C5: when every attempt's response parses as JSON but is not an array,
each attempt fails validation, both retry loops run through all
`max_retries` attempts (one response per attempt), and on exhaustion both
generators return the explicit no-result value `None` instead of raising. -/
theorem retry_exhaustion_returns_none
    (responses : List String) (assigned s3Url imageFilename : String)
    (hfail : ∀ r ∈ responses, ∃ v, jsonParse (cleanResponse r) = some v ∧ Json.isArr v = false) :
    s3_retry responses assigned s3Url imageFilename = (none, responses.length) ∧
    batch_retry responses imageFilename = (none, responses.length) := by
  induction responses with
  | nil => exact ⟨rfl, rfl⟩
  | cons r rest ih =>
    obtain ⟨v, hv, hva⟩ := hfail r (List.mem_cons_self _ _)
    have ihr := ih (fun r' hr' => hfail r' (List.mem_cons_of_mem _ hr'))
    constructor
    · have hatt : s3_attempt r assigned s3Url imageFilename = .validationError := by
        simp only [s3_attempt, hv, validate_s3_non_array v _ _ _ hva]
      simp [s3_retry, hatt, ihr.1]
    · have hatt : batch_attempt r imageFilename = .validationError := by
        simp only [batch_attempt, hv, validate_batch_non_array v _ hva]
      simp [batch_retry, hatt, ihr.2]

theorem retry_exhaustion_returns_none_witness :
    (∀ r ∈ (["\x7b\"a\": 1\x7d", "\x7b\"a\": 1\x7d", "\x7b\"a\": 1\x7d"] : List String),
      ∃ v, jsonParse (cleanResponse r) = some v ∧ Json.isArr v = false) ∧
    (s3_retry ["\x7b\"a\": 1\x7d", "\x7b\"a\": 1\x7d", "\x7b\"a\": 1\x7d"] "Easy" "URL" "img.png"
        = ((none : Option (List (String × Json))), 3) ∧
      batch_retry ["\x7b\"a\": 1\x7d", "\x7b\"a\": 1\x7d", "\x7b\"a\": 1\x7d"] "img.png"
        = ((none : Option (List (List (String × Json)))), 3)) := by
  have hf : ∀ r ∈ (["\x7b\"a\": 1\x7d", "\x7b\"a\": 1\x7d", "\x7b\"a\": 1\x7d"] : List String),
      ∃ v, jsonParse (cleanResponse r) = some v ∧ Json.isArr v = false := by
    intro r hr
    simp only [List.mem_cons, List.not_mem_nil, or_false, or_self] at hr
    subst hr
    exact ⟨Json.obj [("a", Json.num 1)], by decide, rfl⟩
  refine ⟨hf, ?_⟩
  have := retry_exhaustion_returns_none
    ["\x7b\"a\": 1\x7d", "\x7b\"a\": 1\x7d", "\x7b\"a\": 1\x7d"] "Easy" "URL" "img.png" hf
  simpa using this

/-! ### Backoff traces -/

/-- C9 (counterexample): three attempts whose responses are not valid JSON
all fail with `json.JSONDecodeError`; the claim predicts sleeps of 2 s then
4 s between the attempts, but the S3 generator's sleep sits inside the
generic `except Exception` arm only, so the trace of waits is empty. -/
theorem parse_error_attempts_do_not_wait :
    jsonParse (cleanResponse "not json") = none ∧
    s3_waits ["not json", "not json", "not json"] "Easy" "URL" "img.png" = [] ∧
    ([] : List Nat) ≠ [2, 4] := by
  refine ⟨by decide, by decide, by decide⟩

theorem batch_waits_from_all_fail :
    ∀ (responses : List String) (k m : Nat) (fn : String),
      (∀ r ∈ responses, (batch_attempt r fn).isOk = false) →
      k + responses.length = m →
      batch_waits_from k m responses fn =
        (List.range (responses.length - 1)).map (fun j => (k + j + 1) * 2) := by
  intro responses
  induction responses with
  | nil => intro k m fn h hk; rfl
  | cons r rest ih =>
    intro k m fn h hk
    have hr := h r (List.mem_cons_self _ _)
    have hrest : ∀ r' ∈ rest, (batch_attempt r' fn).isOk = false :=
      fun r' hr' => h r' (List.mem_cons_of_mem _ hr')
    cases hatt : batch_attempt r fn with
    | ok qs => rw [hatt] at hr; simp [BatchAttempt.isOk] at hr
    | parseError =>
      simp only [batch_waits_from, hatt]
      rw [ih (k + 1) m fn hrest (by simp at hk; omega)]
      cases rest with
      | nil =>
        have hnot : ¬ k < m - 1 := by simp at hk; omega
        simp [hnot]
      | cons r2 rest2 =>
        have hyes : k < m - 1 := by simp at hk; omega
        simp only [hyes, if_true, List.length_cons, Nat.add_sub_cancel,
          List.range_succ_eq_map, List.map_cons, List.map_map]
        rw [List.singleton_append, List.cons.injEq]
        refine ⟨by omega, ?_⟩
        apply List.map_congr_left
        intro j hj
        simp only [Function.comp_apply]
        omega
    | validationError =>
      simp only [batch_waits_from, hatt]
      rw [ih (k + 1) m fn hrest (by simp at hk; omega)]
      cases rest with
      | nil =>
        have hnot : ¬ k < m - 1 := by simp at hk; omega
        simp [hnot]
      | cons r2 rest2 =>
        have hyes : k < m - 1 := by simp at hk; omega
        simp only [hyes, if_true, List.length_cons, Nat.add_sub_cancel,
          List.range_succ_eq_map, List.map_cons, List.map_map]
        rw [List.singleton_append, List.cons.injEq]
        refine ⟨by omega, ?_⟩
        apply List.map_congr_left
        intro j hj
        simp only [Function.comp_apply]
        omega

theorem s3_waits_all_parse_error :
    ∀ (responses : List String) (k m : Nat) (a u f : String),
      (∀ r ∈ responses, s3_attempt r a u f = .parseError) →
      s3_waits_from k m responses a u f = [] := by
  intro responses
  induction responses with
  | nil => intro k m a u f h; rfl
  | cons r rest ih =>
    intro k m a u f h
    have hr := h r (List.mem_cons_self _ _)
    simp only [s3_waits_from, hr]
    exact ih (k + 1) m a u f (fun r' hr' => h r' (List.mem_cons_of_mem _ hr'))

/-- C9 (amended): the batch generator waits `(attempt + 1) * 2` seconds
(linear backoff, 0-based attempt index) after every failed attempt but the
last, whatever the failure; the S3 generator executes its wait only inside
the generic exception arm, so attempts failing with a JSON parse error
trigger no wait at all. -/
theorem backoff_linear_in_batch_but_skipped_on_parse_errors
    (responses : List String) (fn assigned s3Url : String)
    (hb : ∀ r ∈ responses, (batch_attempt r fn).isOk = false)
    (hs : ∀ r ∈ responses, s3_attempt r assigned s3Url fn = .parseError) :
    batch_waits responses fn = (List.range (responses.length - 1)).map (fun i => (i + 1) * 2) ∧
    s3_waits responses assigned s3Url fn = [] := by
  constructor
  · have h := batch_waits_from_all_fail responses 0 responses.length fn hb (by omega)
    simpa [batch_waits] using h
  · exact s3_waits_all_parse_error responses 0 responses.length assigned s3Url fn hs

theorem backoff_divergence_witness :
    ((∀ r ∈ (["not json", "oops"] : List String), (batch_attempt r "img.png").isOk = false) ∧
      (∀ r ∈ (["not json", "oops"] : List String),
        s3_attempt r "Easy" "URL" "img.png" = .parseError)) ∧
    (batch_waits ["not json", "oops"] "img.png" = [2] ∧
      s3_waits ["not json", "oops"] "Easy" "URL" "img.png" = []) := by
  have hb : ∀ r ∈ (["not json", "oops"] : List String),
      (batch_attempt r "img.png").isOk = false := by decide
  have hs : ∀ r ∈ (["not json", "oops"] : List String),
      s3_attempt r "Easy" "URL" "img.png" = .parseError := by decide
  refine ⟨⟨hb, hs⟩, ?_⟩
  have h := backoff_linear_in_batch_but_skipped_on_parse_errors
    ["not json", "oops"] "img.png" "Easy" "URL" hb hs
  simpa using h

/-! ### Markdown fence stripping -/

theorem pyStrip_eq_self_of (l : List Char)
    (h1 : l.dropWhile isPySpace = l) (h2 : l.reverse.dropWhile isPySpace = l.reverse) :
    pyStrip l = l := by
  unfold pyStrip
  rw [h1, h2, List.reverse_reverse]

theorem pyStrip_fix_parts (l : List Char) (h : pyStrip l = l) :
    l.dropWhile isPySpace = l ∧ l.reverse.dropWhile isPySpace = l.reverse := by
  unfold pyStrip at h
  have e1 : (((l.dropWhile isPySpace).reverse.dropWhile isPySpace).reverse).length
      = l.length := by rw [h]
  have e2 : ((l.dropWhile isPySpace).reverse.dropWhile isPySpace).length
      ≤ (l.dropWhile isPySpace).length := by
    have := (List.dropWhile_suffix (l := (l.dropWhile isPySpace).reverse)
      (p := isPySpace)).length_le
    simpa using this
  have e3 : (l.dropWhile isPySpace).length ≤ l.length :=
    (List.dropWhile_suffix _).length_le
  rw [List.length_reverse] at e1
  have hA : l.dropWhile isPySpace = l :=
    (List.dropWhile_suffix _).sublist.eq_of_length (by omega)
  refine ⟨hA, ?_⟩
  rw [hA] at h
  have := congrArg List.reverse h
  simpa using this

theorem not_space_head {c : Char} {tl : List Char}
    (h : (c :: tl).dropWhile isPySpace = c :: tl) : isPySpace c = false := by
  by_contra hc
  rw [Bool.not_eq_false] at hc
  rw [List.dropWhile_cons, if_pos hc] at h
  have hle := (List.dropWhile_suffix (l := tl) (p := isPySpace)).length_le
  have hlen := congrArg List.length h
  simp only [List.length_cons] at hlen
  omega

theorem cleanList_fence (d : List Char) (hne : d ≠ []) (hstrip : pyStrip d = d) :
    cleanList ("```json\n".data ++ d ++ "\n```".data) = d := by
  obtain ⟨hA, hB⟩ := pyStrip_fix_parts d hstrip
  cases d with
  | nil => exact absurd rfl hne
  | cons c tl =>
  have hc : isPySpace c = false := not_space_head hA
  unfold cleanList
  set L := "```json\n".data ++ (c :: tl) ++ "\n```".data with hL
  have hstep0 : pyStrip L = L := by
    apply pyStrip_eq_self_of
    · rw [hL]
      rfl
    · have hLrev : L.reverse = '`' :: ('`' :: '`' :: '\n' ::
          ((c :: tl).reverse ++ "```json\n".data.reverse)) := by
        rw [hL]
        simp [List.reverse_append]
      rw [hLrev]
      rfl
  rw [hstep0]
  dsimp only
  have hsplit : L = "```json".data ++ ('\n' :: ((c :: tl) ++ "\n```".data)) := by
    rw [hL]
    rfl
  have hpre : "```json".data.isPrefixOf L = true := by
    rw [List.isPrefixOf_iff_prefix, hsplit]
    exact ⟨_, rfl⟩
  rw [if_pos hpre]
  have hdrop : L.drop 7 = '\n' :: ((c :: tl) ++ "\n```".data) := by
    rw [hsplit]
    have h7 : (7 : Nat) = ("```json".data).length := rfl
    rw [h7, List.drop_left]
  rw [hdrop]
  have hmid : '\n' :: ((c :: tl) ++ "\n```".data)
      = ('\n' :: ((c :: tl) ++ ['\n'])) ++ "```".data := by
    simp
  have hsuf : "```".data.isSuffixOf ('\n' :: ((c :: tl) ++ "\n```".data)) = true := by
    rw [List.isSuffixOf_iff_suffix, hmid]
    exact ⟨_, rfl⟩
  rw [if_pos hsuf]
  have htake : ('\n' :: ((c :: tl) ++ "\n```".data)).take
      (('\n' :: ((c :: tl) ++ "\n```".data)).length - 3)
      = '\n' :: ((c :: tl) ++ ['\n']) := by
    rw [hmid]
    have hlen3 : (('\n' :: ((c :: tl) ++ ['\n'])) ++ "```".data).length - 3
        = ('\n' :: ((c :: tl) ++ ['\n'])).length := by
      simp
    rw [hlen3, List.take_left]
  rw [htake]
  have hd1 : ('\n' :: ((c :: tl) ++ ['\n'])).dropWhile isPySpace = (c :: tl) ++ ['\n'] := by
    rw [List.dropWhile_cons, if_pos (by decide), List.cons_append, List.dropWhile_cons, if_neg]
    rw [hc]
    simp
  have hd2 : ((c :: tl) ++ ['\n']).reverse.dropWhile isPySpace = (c :: tl).reverse := by
    have hrv : ((c :: tl) ++ ['\n']).reverse = '\n' :: (c :: tl).reverse := by
      rw [List.reverse_append]
      rfl
    rw [hrv, List.dropWhile_cons, if_pos (by decide)]
    exact hB
  unfold pyStrip
  rw [hd1, hd2, List.reverse_reverse]

/-- C6: a model response of the exact form "```json\n" + body + "\n```,"
where the body is a whitespace-trimmed JSON array, is stripped by the
response-cleaning step to exactly the body, and the stripped text parses to
the same JSON array the body parses to. -/
theorem fenced_response_stripped_and_parses
    (s : String) (xs : List Json)
    (hne : s.data ≠ [])
    (hstrip : pyStrip s.data = s.data)
    (hparse : jsonParse s = some (.arr xs)) :
    cleanResponse ("```json\n" ++ s ++ "\n```") = s ∧
    jsonParse (cleanResponse ("```json\n" ++ s ++ "\n```")) = some (.arr xs) := by
  have hdata : ("```json\n" ++ s ++ "\n```").data
      = "```json\n".data ++ s.data ++ "\n```".data := by
    simp [String.data_append]
  have hcl : cleanList (("```json\n" ++ s ++ "\n```").data) = s.data := by
    rw [hdata]
    exact cleanList_fence s.data hne hstrip
  have h1 : cleanResponse ("```json\n" ++ s ++ "\n```") = s := by
    unfold cleanResponse
    rw [hcl]
  refine ⟨h1, ?_⟩
  rw [h1]
  exact hparse

theorem fenced_response_witness :
    ("[\x7b\"question_text\": \"Q\"\x7d]".data ≠ [] ∧
      pyStrip "[\x7b\"question_text\": \"Q\"\x7d]".data
        = "[\x7b\"question_text\": \"Q\"\x7d]".data ∧
      jsonParse "[\x7b\"question_text\": \"Q\"\x7d]"
        = some (.arr [.obj [("question_text", .str "Q")]])) ∧
    (cleanResponse ("```json\n" ++ "[\x7b\"question_text\": \"Q\"\x7d]" ++ "\n```")
        = "[\x7b\"question_text\": \"Q\"\x7d]" ∧
      jsonParse (cleanResponse ("```json\n" ++ "[\x7b\"question_text\": \"Q\"\x7d]" ++ "\n```"))
        = some (.arr [.obj [("question_text", .str "Q")]])) :=
  ⟨⟨by decide, by decide, by decide⟩,
    fenced_response_stripped_and_parses "[\x7b\"question_text\": \"Q\"\x7d]"
      [.obj [("question_text", .str "Q")]] (by decide) (by decide) (by decide)⟩

/-! ### Batch statistics invariants -/

theorem setEntry_append_fresh :
    ∀ (rs : List (String × String × Nat)) (k : String) (v : String × Nat),
      k ∉ rs.map Prod.fst → setEntry rs k v = rs ++ [(k, v)] := by
  intro rs
  induction rs with
  | nil => intro k v h; rfl
  | cons p rest ih =>
    intro k v h
    obtain ⟨k0, v0⟩ := p
    simp only [List.map_cons, List.mem_cons, not_or] at h
    have hne : ¬ k0 = k := fun he => h.1 he.symm
    simp only [setEntry, if_neg hne]
    rw [ih k v h.2]
    simp

theorem s3_image_data_fst (p : String × Except String (Option (List (String × Json)))) :
    (s3_image_data p).1 = basename p.1 := by
  obtain ⟨k, res⟩ := p
  rcases res with e | q
  · rfl
  · rcases q with _ | q
    · rfl
    · simp only [s3_image_data]
      split <;> rfl

theorem batch_image_data_fst
    (p : String × Except String (Option (List (List (String × Json))))) :
    (batch_image_data p).1 = basename p.1 := by
  obtain ⟨k, res⟩ := p
  rcases res with e | q
  · rfl
  · rcases q with _ | q
    · rfl
    · simp only [batch_image_data]
      split <;> rfl

theorem foldRecord_spec {γ : Type} (f : γ → String × String × Bool × Nat) :
    ∀ (items : List γ) (st0 : ProcessingStats),
      (∀ it ∈ items, (f it).1 ∉ st0.image_results.map Prod.fst) →
      (items.map fun it => (f it).1).Nodup →
      ((items.foldl
          (fun st it => recordResult st (f it).1 (f it).2.1 (f it).2.2.1 (f it).2.2.2)
          st0).total_images = st0.total_images ∧
        (items.foldl
          (fun st it => recordResult st (f it).1 (f it).2.1 (f it).2.2.1 (f it).2.2.2)
          st0).successful +
          (items.foldl
            (fun st it => recordResult st (f it).1 (f it).2.1 (f it).2.2.1 (f it).2.2.2)
            st0).failed = st0.successful + st0.failed + items.length ∧
        (items.foldl
          (fun st it => recordResult st (f it).1 (f it).2.1 (f it).2.2.1 (f it).2.2.2)
          st0).total_questions
          = st0.total_questions + (items.map fun it => (f it).2.2.2).sum ∧
        (items.foldl
          (fun st it => recordResult st (f it).1 (f it).2.1 (f it).2.2.1 (f it).2.2.2)
          st0).image_results
          = st0.image_results ++ items.map (fun it => ((f it).1, (f it).2.1, (f it).2.2.2))) := by
  intro items
  induction items with
  | nil => intro st0 hfresh hnd; simp
  | cons it rest ih =>
    intro st0 hfresh hnd
    simp only [List.foldl_cons]
    have hfr : (f it).1 ∉ st0.image_results.map Prod.fst :=
      hfresh it (List.mem_cons_self _ _)
    have hset : setEntry st0.image_results (f it).1 ((f it).2.1, (f it).2.2.2)
        = st0.image_results ++ [((f it).1, (f it).2.1, (f it).2.2.2)] :=
      setEntry_append_fresh _ _ _ hfr
    simp only [List.map_cons, List.nodup_cons] at hnd
    have hfresh' : ∀ it' ∈ rest,
        (f it').1 ∉ (recordResult st0 (f it).1 (f it).2.1 (f it).2.2.1
          (f it).2.2.2).image_results.map Prod.fst := by
      intro it' hit'
      simp only [recordResult, hset, List.map_append, List.map_cons, List.map_nil]
      rw [List.mem_append]
      rintro (hmem | hmem)
      · exact hfresh it' (List.mem_cons_of_mem _ hit') hmem
      · simp only [List.mem_singleton] at hmem
        exact hnd.1 (hmem ▸ List.mem_map_of_mem (fun it => (f it).1) hit')
    obtain ⟨ht, hsf, htq, hir⟩ := ih _ hfresh' hnd.2
    refine ⟨?_, ?_, ?_, ?_⟩
    · rw [ht]
      rfl
    · rw [hsf]
      simp only [recordResult, List.length_cons]
      cases (f it).2.2.1 <;> simp <;> omega
    · rw [htq]
      simp only [recordResult, List.map_cons, List.sum_cons]
      omega
    · rw [hir]
      simp only [recordResult, hset]
      simp

/-- C10 (counterexample): `process_s3_images` keys `image_results` by
`os.path.basename`, and an S3 listing can contain two keys with the same
basename; the second entry then overwrites the first, so with images
`a/x.png` (success, 1 question) and `b/x.png` (failure) the stats hold one
entry for two images and the entry question counts sum to 0 while
`total_questions` is 1. -/
theorem duplicate_basenames_break_stats :
    basename "a/x.png" = basename "b/x.png" ∧
    (process_s3_images [("a/x.png", .ok (some [("difficulty_level", Json.str "Easy")])),
        ("b/x.png", .ok none)]).total_images = 2 ∧
    (process_s3_images [("a/x.png", .ok (some [("difficulty_level", Json.str "Easy")])),
        ("b/x.png", .ok none)]).total_questions = 1 ∧
    (process_s3_images [("a/x.png", .ok (some [("difficulty_level", Json.str "Easy")])),
        ("b/x.png", .ok none)]).image_results = [("x.png", ("failed", 0))] ∧
    ((process_s3_images [("a/x.png", .ok (some [("difficulty_level", Json.str "Easy")])),
        ("b/x.png", .ok none)]).image_results.map fun e => e.2.2).sum = 0 ∧
    (process_s3_images [("a/x.png", .ok (some [("difficulty_level", Json.str "Easy")])),
        ("b/x.png", .ok none)]).image_results.length = 1 := by
  refine ⟨by decide, by decide, by decide, by decide, by decide, by decide⟩

theorem process_s3_images_eq
    (imgs : List (String × Except String (Option (List (String × Json))))) :
    process_s3_images imgs = imgs.foldl
      (fun st it => recordResult st (s3_image_data it).1 (s3_image_data it).2.1
        (s3_image_data it).2.2.1 (s3_image_data it).2.2.2)
      { total_images := imgs.length, successful := 0, failed := 0, total_questions := 0,
        image_results := [] } := rfl

theorem process_image_directory_eq
    (imgs : List (String × Except String (Option (List (List (String × Json)))))) :
    process_image_directory imgs = imgs.foldl
      (fun st it => recordResult st (batch_image_data it).1 (batch_image_data it).2.1
        (batch_image_data it).2.2.1 (batch_image_data it).2.2.2)
      { total_images := imgs.length, successful := 0, failed := 0, total_questions := 0,
        image_results := [] } := rfl

/-- C10 (amended): provided the processed images have pairwise distinct
basenames (true for the local-directory client, whose images come from one
directory; for the S3 client it is an extra assumption, since a prefix
listing can repeat basenames across folders), after any batch run:
successful + failed equals total_images, total_questions equals the sum of
the per-entry question counts, and every image has exactly one entry in
image_results. -/
theorem stats_invariants_with_distinct_basenames
    (imgsS3 : List (String × Except String (Option (List (String × Json)))))
    (imgsB : List (String × Except String (Option (List (List (String × Json))))))
    (h1 : (imgsS3.map fun p => basename p.1).Nodup)
    (h2 : (imgsB.map fun p => basename p.1).Nodup) :
    ((process_s3_images imgsS3).successful + (process_s3_images imgsS3).failed
        = (process_s3_images imgsS3).total_images ∧
      (process_s3_images imgsS3).total_questions
        = ((process_s3_images imgsS3).image_results.map fun e => e.2.2).sum ∧
      ∀ p ∈ imgsS3,
        ((process_s3_images imgsS3).image_results.map Prod.fst).count (basename p.1) = 1) ∧
    ((process_image_directory imgsB).successful + (process_image_directory imgsB).failed
        = (process_image_directory imgsB).total_images ∧
      (process_image_directory imgsB).total_questions
        = ((process_image_directory imgsB).image_results.map fun e => e.2.2).sum ∧
      ∀ p ∈ imgsB,
        ((process_image_directory imgsB).image_results.map Prod.fst).count (basename p.1)
          = 1) := by
  constructor
  · have hmapeq : (imgsS3.map fun it => (s3_image_data it).1)
        = imgsS3.map fun p => basename p.1 :=
      List.map_congr_left (fun p _ => s3_image_data_fst p)
    have hnd : (imgsS3.map fun it => (s3_image_data it).1).Nodup := by rw [hmapeq]; exact h1
    obtain ⟨ht, hsf, htq, hir⟩ := foldRecord_spec s3_image_data imgsS3
      { total_images := imgsS3.length, successful := 0, failed := 0, total_questions := 0,
        image_results := [] } (by simp) hnd
    refine ⟨?_, ?_, ?_⟩
    · rw [process_s3_images_eq, hsf, ht]
      simp
    · rw [process_s3_images_eq, htq, hir]
      simp [List.map_map, Function.comp_def]
    · intro p hp
      rw [process_s3_images_eq, hir]
      simp only [List.nil_append, List.map_map]
      have hfst : (imgsS3.map ((fun e => e.1) ∘ fun it =>
          ((s3_image_data it).1, (s3_image_data it).2.1, (s3_image_data it).2.2.2)))
          = imgsS3.map fun p => basename p.1 := by
        rw [← hmapeq]
        rfl
      rw [hfst]
      exact List.count_eq_one_of_mem h1 (List.mem_map_of_mem _ hp)
  · have hmapeq : (imgsB.map fun it => (batch_image_data it).1)
        = imgsB.map fun p => basename p.1 :=
      List.map_congr_left (fun p _ => batch_image_data_fst p)
    have hnd : (imgsB.map fun it => (batch_image_data it).1).Nodup := by rw [hmapeq]; exact h2
    obtain ⟨ht, hsf, htq, hir⟩ := foldRecord_spec batch_image_data imgsB
      { total_images := imgsB.length, successful := 0, failed := 0, total_questions := 0,
        image_results := [] } (by simp) hnd
    refine ⟨?_, ?_, ?_⟩
    · rw [process_image_directory_eq, hsf, ht]
      simp
    · rw [process_image_directory_eq, htq, hir]
      simp [List.map_map, Function.comp_def]
    · intro p hp
      rw [process_image_directory_eq, hir]
      simp only [List.nil_append, List.map_map]
      have hfst : (imgsB.map ((fun e => e.1) ∘ fun it =>
          ((batch_image_data it).1, (batch_image_data it).2.1, (batch_image_data it).2.2.2)))
          = imgsB.map fun p => basename p.1 := by
        rw [← hmapeq]
        rfl
      rw [hfst]
      exact List.count_eq_one_of_mem h2 (List.mem_map_of_mem _ hp)

/-- Concrete two-image S3 run: one success with one question, one failure;
distinct basenames. -/
def witnessS3Run : List (String × Except String (Option (List (String × Json)))) :=
  [("a/x.png", Except.ok (some [("difficulty_level", Json.str "Easy")])),
        ("b/y.png", Except.ok none)]

/-- Concrete two-image local run: one success with two questions, one
unexpected error; distinct basenames. -/
def witnessBatchRun : List (String × Except String (Option (List (List (String × Json))))) :=
  [("im1.png", Except.ok (some [[("topic", Json.str "T")], [("topic", Json.str "U")]])),
        ("im2.png", Except.error "boom")]

theorem stats_invariants_witness :
    ((witnessS3Run.map fun p => basename p.1).Nodup ∧
      (witnessBatchRun.map fun p => basename p.1).Nodup) ∧
    (((process_s3_images witnessS3Run).successful + (process_s3_images witnessS3Run).failed
        = (process_s3_images witnessS3Run).total_images ∧
      (process_s3_images witnessS3Run).total_questions
        = ((process_s3_images witnessS3Run).image_results.map fun e => e.2.2).sum ∧
      ∀ p ∈ witnessS3Run,
        ((process_s3_images witnessS3Run).image_results.map Prod.fst).count (basename p.1)
          = 1) ∧
    ((process_image_directory witnessBatchRun).successful +
          (process_image_directory witnessBatchRun).failed
        = (process_image_directory witnessBatchRun).total_images ∧
      (process_image_directory witnessBatchRun).total_questions
        = ((process_image_directory witnessBatchRun).image_results.map fun e => e.2.2).sum ∧
      ∀ p ∈ witnessBatchRun,
        ((process_image_directory witnessBatchRun).image_results.map Prod.fst).count
          (basename p.1) = 1)) :=
  ⟨⟨by decide, by decide⟩,
    stats_invariants_with_distinct_basenames witnessS3Run witnessBatchRun
      (by decide) (by decide)⟩

end ImgQGen
